import Mathlib

/-!
Verification of the real-time synchronization core of todomaster-2010.

The development shallowly embeds:
  * the client entity types (frontend types.ts),
  * the WebSocket envelope handler `handleWebSocketEvent` (useWebSocket hook),
  * the optimistic list mutations of useLists.ts
    (useCreateList, useUpdateList, useDeleteList callbacks),
  * the axios 401 refresh interceptor and `handleAuthFailure` (api/client.ts),
  * the Go connection registry `Hub` (websocket.go: Run loop branches).

Machine integers are modelled as `Int` (JS numbers and Go int64 in the
observed ranges), timestamps as strings, and the react-query caches as
`Option (List _)` (a query key either has a cached array or is absent).
-/

namespace TodoMaster

/-- Client entity `List` from types.ts.  Named `ListEntity` because `List`
is taken by the Lean core type. -/
structure ListEntity where
  id : Int
  userId : Int
  title : String
  createdAt : String
  updatedAt : String
deriving DecidableEq, Repr

/-- Client entity `Subtask` from types.ts. -/
structure Subtask where
  id : Int
  taskId : Int
  text : String
  completed : Bool
  sortOrder : Int
  createdAt : String
deriving DecidableEq, Repr

/-- Client entity `Task` from types.ts.  Optional fields (`listId?`,
`tags?`, `subtasks?`) become `Option`. -/
structure Task where
  id : Int
  userId : Int
  listId : Option Int
  text : String
  completed : Bool
  important : Bool
  isExpanded : Bool
  sortOrder : Int
  tags : Option (List String)
  subtasks : Option (List Subtask)
  createdAt : String
  updatedAt : String
deriving DecidableEq, Repr

/-- The two react-query collections the synchronization core touches:
`getQueryData(["tasks"])` and `getQueryData(["lists"])`.  `none` models an
absent cache entry (getQueryData returning undefined). -/
structure Cache where
  tasks : Option (List Task)
  lists : Option (List ListEntity)
deriving DecidableEq, Repr

/-- Tagged union of the WebSocket event envelopes consumed by
`handleWebSocketEvent` (the `switch (event.type)` cases). -/
inductive WSEvent where
  | task_created (t : Task)
  | task_updated (t : Task)
  | task_deleted (id : Int)
  | tasks_reordered (taskIds : List Int)
  | subtask_created (s : Subtask)
  | subtask_updated (s : Subtask)
  | subtask_deleted (id : Int)
  | list_created (l : ListEntity)
  | list_updated (l : ListEntity)
  | list_deleted (id : Int)
  | unknown (ty : String)
deriving DecidableEq, Repr

/-- Lookup in a JS Map built from the task array keyed by id: on duplicate
ids the last entry wins, hence the find on the reversed array. -/
def revFind (tasks : List Task) (id : Int) : Option Task :=
  tasks.reverse.find? fun t => t.id == id

/-- The `tasks_reordered` branch of `handleWebSocketEvent`:
`taskMap.get` is `revFind`, `taskIds.map((id, index) => ...)` followed by
filtering out `undefined` is `enum.map` followed by `reduceOption`, and
unmentioned tasks are appended afterwards. -/
def applyReorder (taskIds : List Int) (tasks : List Task) : List Task :=
  let reorderedTasks : List Task :=
    (taskIds.enum.map fun p =>
      (revFind tasks p.2).map fun task => { task with sortOrder := (p.1 : Int) }).reduceOption
  let missingTasks := tasks.filter fun t => !taskIds.contains t.id
  reorderedTasks ++ missingTasks

/-- Recursive presentation of the indexed map-and-drop-missing step of
applyReorder, used to reason about it by structural induction. -/
def reorderCore (lookup : Int → Option Task) : Nat → List Int → List Task
  | _, [] => []
  | k, id :: rest =>
    match lookup id with
    | some t => { t with sortOrder := (k : Int) } :: reorderCore lookup (k + 1) rest
    | none => reorderCore lookup (k + 1) rest

/-- The `handleWebSocketEvent` callback of the useWebSocket hook.  It reads
the tasks cache first and returns early when it is absent, then dispatches
on the event type, writing back at most one collection per event. -/
def handleWebSocketEvent (ev : WSEvent) (c : Cache) : Cache :=
  match c.tasks with
  | none => c
  | some tasks =>
    match ev with
    | .task_created t =>
      if tasks.any fun x => x.id == t.id then c
      else { c with tasks := some (tasks ++ [t]) }
    | .task_updated t =>
      { c with tasks := some (tasks.map fun x => if x.id == t.id then t else x) }
    | .task_deleted id =>
      { c with tasks := some (tasks.filter fun x => x.id != id) }
    | .tasks_reordered taskIds =>
      { c with tasks := some (applyReorder taskIds tasks) }
    | .subtask_created s =>
      { c with tasks := some (tasks.map fun task =>
          if task.id == s.taskId then
            if (task.subtasks.getD []).any fun x => x.id == s.id then task
            else { task with subtasks := some ((task.subtasks.getD []) ++ [s]) }
          else task) }
    | .subtask_updated s =>
      { c with tasks := some (tasks.map fun task =>
          { task with subtasks :=
              task.subtasks.map fun l => l.map fun x => if x.id == s.id then s else x }) }
    | .subtask_deleted id =>
      { c with tasks := some (tasks.map fun task =>
          { task with subtasks := task.subtasks.map fun l => l.filter fun x => x.id != id }) }
    | .list_created l =>
      match c.lists with
      | some lists =>
        if lists.any fun x => x.id == l.id then c
        else { c with lists := some (lists ++ [l]) }
      | none => c
    | .list_updated l =>
      match c.lists with
      | some lists =>
        { c with lists := some (lists.map fun x => if x.id == l.id then l else x) }
      | none => c
    | .list_deleted id =>
      match c.lists with
      | some lists =>
        { c with lists := some (lists.filter fun x => x.id != id) }
      | none => c
    | .unknown _ => c

/-! ## useLists.ts optimistic mutations -/

/-- Context returned by useCreateList onMutate
(`return { previousLists, tempId }`). -/
structure CreateListContext where
  previousLists : Option (List ListEntity)
  tempId : Int
deriving DecidableEq, Repr

/-- Temp id synthesis of useCreateList onMutate: `const tempId = Date.now()`,
the current clock reading in milliseconds. -/
def genTempId (dateNow : Int) : Int := dateNow

/-- useCreateList onMutate: snapshot the lists cache, append an optimistic
list with the temp id (`userId: 0`), return the updated cache and context.
`dateNow` is the Date.now() reading, `nowIso` the toISOString() rendering. -/
def createList_onMutate (dateNow : Int) (nowIso : String) (title : String)
    (lists : Option (List ListEntity)) : Option (List ListEntity) × CreateListContext :=
  let tempId := genTempId dateNow
  let optimisticList : ListEntity :=
    { id := tempId, userId := 0, title := title, createdAt := nowIso, updatedAt := nowIso }
  match lists with
  | some previousLists => (some (previousLists ++ [optimisticList]), ⟨lists, tempId⟩)
  | none => (some [optimisticList], ⟨none, tempId⟩)

/-- useCreateList onSuccess: guarded by `currentLists && context?.tempId`
(an Int is truthy iff nonzero), filter out both the temp id entry and any
entry already present under the confirmed id, then append the confirmed
list. -/
def createList_onSuccess (newList : ListEntity) (ctx : CreateListContext)
    (current : Option (List ListEntity)) : Option (List ListEntity) :=
  match current with
  | some currentLists =>
    if ctx.tempId != 0 then
      some ((currentLists.filter fun l => l.id != ctx.tempId && l.id != newList.id) ++ [newList])
    else current
  | none => current

/-- useCreateList onError: restore the snapshot only when
`context?.previousLists` is truthy, i.e. when the snapshot existed (an
empty array is truthy, an absent cache gave undefined). -/
def createList_onError (ctx : CreateListContext)
    (current : Option (List ListEntity)) : Option (List ListEntity) :=
  match ctx.previousLists with
  | some prev => some prev
  | none => current

/-- Context returned by useUpdateList onMutate. -/
structure UpdateListContext where
  previousLists : Option (List ListEntity)
deriving DecidableEq, Repr

/-- useUpdateList onMutate: snapshot, then rewrite the matching list title
in place (when the cache is present). -/
def updateList_onMutate (id : Int) (title : String) (nowIso : String)
    (lists : Option (List ListEntity)) : Option (List ListEntity) × UpdateListContext :=
  match lists with
  | some previousLists =>
    (some (previousLists.map fun l =>
        if l.id == id then { l with title := title, updatedAt := nowIso } else l),
     ⟨lists⟩)
  | none => (none, ⟨none⟩)

/-- useUpdateList onError: restore the snapshot when it existed. -/
def updateList_onError (ctx : UpdateListContext)
    (current : Option (List ListEntity)) : Option (List ListEntity) :=
  match ctx.previousLists with
  | some prev => some prev
  | none => current

/-- Context returned by useDeleteList onMutate. -/
structure DeleteListContext where
  previousLists : Option (List ListEntity)
  previousTasks : Option (List Task)
deriving DecidableEq, Repr

/-- useDeleteList onMutate: snapshot both caches, optimistically remove
the list, and remove tasks belonging to it (client-side mirror of the
backend CASCADE).  `task.listId !== id` keeps tasks with no listId. -/
def deleteList_onMutate (id : Int) (c : Cache) : Cache × DeleteListContext :=
  let previousLists := c.lists
  let previousTasks := c.tasks
  let c1 := match previousLists with
    | some pl => { c with lists := some (pl.filter fun l => l.id != id) }
    | none => c
  let c2 := match previousTasks with
    | some pt => { c1 with tasks := some (pt.filter fun t => t.listId != some id) }
    | none => c1
  (c2, ⟨previousLists, previousTasks⟩)

/-- useDeleteList onSuccess: re-filter whatever is currently cached. -/
def deleteList_onSuccess (id : Int) (c : Cache) : Cache :=
  let c1 := match c.lists with
    | some cl => { c with lists := some (cl.filter fun l => l.id != id) }
    | none => c
  match c1.tasks with
  | some ct => { c1 with tasks := some (ct.filter fun t => t.listId != some id) }
  | none => c1

/-- useDeleteList onError: restore each snapshot that existed. -/
def deleteList_onError (ctx : DeleteListContext) (c : Cache) : Cache :=
  let c1 := match ctx.previousLists with
    | some prev => { c with lists := some prev }
    | none => c
  match ctx.previousTasks with
  | some prev => { c1 with tasks := some prev }
  | none => c1

/-- Lifting of the useCreateList onSuccess cache write to the two-collection
cache (it touches only the lists collection). -/
def createSuccessCache (newList : ListEntity) (ctx : CreateListContext) (c : Cache) : Cache :=
  { c with lists := createList_onSuccess newList ctx c.lists }

/-! ## api/client.ts: the 401 refresh interceptor

The axios response interceptor runs on the single JS event loop; the code
from the 401 check up to setting `isRefreshing = true` contains no await,
so concurrent 401 completions are processed one after another against the
shared module state.  The model below makes that state explicit and
processes one failed request per step. -/

/-- Occurrence test on character lists: the needle occurs at some
position of the haystack. -/
def charsInclude (needle : List Char) : List Char → Bool
  | [] => needle.isEmpty
  | c :: cs => needle.isPrefixOf (c :: cs) || charsInclude needle cs

/-- Substring test modelling the JS `url.includes(sub)`. -/
def includesSubstring (haystack needle : String) : Bool :=
  charsInclude needle.data haystack.data

/-- An axios request config as far as the interceptor inspects it:
its url, its Authorization header, and the `_retry` marker (written
`retryFlag` here). -/
structure RequestConfig where
  url : String
  authHeader : Option String
  retryFlag : Bool
deriving DecidableEq, Repr

/-- The localStorage keys the auth code touches. -/
structure LocalStorage where
  token : Option String
  refreshToken : Option String
  offlineCache : Option String
deriving DecidableEq, Repr

/-- Module-level mutable state of api/client.ts: `isRefreshing`,
`failedQueue`, and localStorage. -/
structure ClientAuthState where
  storage : LocalStorage
  isRefreshing : Bool
  failedQueue : List RequestConfig
deriving DecidableEq, Repr

/-- What the interceptor decides for one 401-failed request. -/
inductive StepAction where
  | rejectNow
  | queued
  | startedRefresh (retryConfig : RequestConfig)
deriving DecidableEq, Repr

/-- How a request eventually settles for its caller. -/
inductive Settled where
  | resolvedWith (token : Option String)
  | rejected
deriving DecidableEq, Repr

/-- handleAuthFailure: remove token, refreshToken and the persisted query
cache from localStorage (full sign-out). -/
def handleAuthFailure (s : LocalStorage) : LocalStorage :=
  { s with token := none, refreshToken := none, offlineCache := none }

/-- The 401 branch of the response interceptor for one failed request:
sign out when the request was already retried or is the refresh call
itself, sign out when no refresh token is stored, queue when a refresh is
already in flight, otherwise mark the request retried and start the
(single) refresh call. -/
def intercept401 (st : ClientAuthState) (r : RequestConfig) : ClientAuthState × StepAction :=
  if r.retryFlag || includesSubstring r.url "/api/auth/refresh" then
    ({ st with storage := handleAuthFailure st.storage }, .rejectNow)
  else
    match st.storage.refreshToken with
    | none => ({ st with storage := handleAuthFailure st.storage }, .rejectNow)
    | some _ =>
      if st.isRefreshing then
        ({ st with failedQueue := st.failedQueue ++ [r] }, .queued)
      else
        ({ st with isRefreshing := true }, .startedRefresh { r with retryFlag := true })

/-- Successful refresh settlement: store the rotated token pair, run
processQueue() (each queued config is re-issued through `api`, whose
request interceptor attaches the token now in storage), retry the
initiating request with its Authorization header set to the new access
token, and clear `isRefreshing`. -/
def settleRefreshSuccess (accessToken newRefreshToken : String)
    (st : ClientAuthState) : ClientAuthState × List Settled × Settled :=
  let storage := { st.storage with
    token := some accessToken, refreshToken := some newRefreshToken }
  let queueResults := st.failedQueue.map fun _ => Settled.resolvedWith storage.token
  ({ storage := storage, isRefreshing := false, failedQueue := [] },
   queueResults, .resolvedWith (some accessToken))

/-- Failed refresh settlement: processQueue(error) rejects every queued
caller, handleAuthFailure clears the credentials, the initiating request
is rejected, and `isRefreshing` is cleared. -/
def settleRefreshFailure (st : ClientAuthState) : ClientAuthState × List Settled × Settled :=
  let queueResults := st.failedQueue.map fun _ => Settled.rejected
  ({ storage := handleAuthFailure st.storage, isRefreshing := false, failedQueue := [] },
   queueResults, .rejected)

/-- Run a burst of n simultaneous 401 completions (configs given by `mk`)
through the interceptor, collecting the per-request actions. -/
def runBurst (mk : Nat → RequestConfig) : Nat → ClientAuthState → ClientAuthState × List StepAction
  | 0, st => (st, [])
  | n + 1, st =>
    let (st1, a) := intercept401 st (mk n)
    let (st2, as) := runBurst mk n st1
    (st2, a :: as)

/-! ## websocket.go: the Hub registry

The Hub serializes register, unregister and broadcast through its Run
loop (one select per message), so each branch is modelled as a pure
transition on the registry state.  A connection is a value carrying its
owner and the contents of its buffered `send` channel (capacity 256);
`select { case send <- msg: default: }` succeeds iff the buffer has room.
`closed` records the connections whose send channel the Hub has closed. -/

/-- A connected WebSocket client as the Hub sees it. -/
structure HubClient where
  clientId : Nat
  userId : Int
  send : List Nat
deriving DecidableEq, Repr

/-- Buffer capacity of the `send` channel (`make(chan []byte, 256)`). -/
def sendCap : Nat := 256

/-- The Hub registry: `clients` maps a userID to its connection set
(absent entry = key not in the Go map), `closed` accumulates force-closed
connections. -/
structure HubState where
  clients : Int → Option (List HubClient)
  closed : List HubClient

/-- Run-loop register branch: create the user entry if missing, then add
the client (map-as-set insert, idempotent). -/
def hubRegister (h : HubState) (c : HubClient) : HubState :=
  let cur := (h.clients c.userId).getD []
  let cur2 := if cur.contains c then cur else cur ++ [c]
  { h with clients := fun u => if u = c.userId then some cur2 else h.clients u }

/-- Run-loop unregister branch: when the client is registered, delete it,
close its send channel, and drop the user entry entirely when the set
became empty. -/
def hubUnregister (h : HubState) (c : HubClient) : HubState :=
  match h.clients c.userId with
  | none => h
  | some cur =>
    if c ∈ cur then
      let remaining := cur.filter fun x => x ≠ c
      if remaining = [] then
        { clients := fun u => if u = c.userId then none else h.clients u,
          closed := h.closed ++ [c] }
      else
        { clients := fun u => if u = c.userId then some remaining else h.clients u,
          closed := h.closed ++ [c] }
    else h

/-- Run-loop broadcast branch: enqueue the message on every connection of
the target user that has buffer room; a connection whose buffer is full is
deleted from the set and its channel closed.  The user entry itself is
never removed on this path, and no other user is touched. -/
def hubBroadcast (h : HubState) (uid : Int) (msg : Nat) : HubState :=
  match h.clients uid with
  | none => h
  | some cur =>
    let delivered := cur.filterMap fun c =>
      if c.send.length < sendCap then some { c with send := c.send ++ [msg] } else none
    let dropped := cur.filter fun c => sendCap ≤ c.send.length
    { clients := fun u => if u = uid then some delivered else h.clients u,
      closed := h.closed ++ dropped }

/-- Registry invariant claimed by the specification: no user id maps to an
empty connection set. -/
def NoEmptyEntry (h : HubState) : Prop :=
  ∀ u, h.clients u ≠ some []

/-- Server-assignable entity id: the backend schema declares every entity
id as INTEGER PRIMARY KEY AUTOINCREMENT (database.go), so SQLite assigns
positive rowids. -/
def serverAssignableId (n : Int) : Prop := 1 ≤ n

/-! ## Shared sample values for concrete witnesses -/

/-- Sample task with a given id and list reference. -/
def mkSampleTask (i : Int) (lid : Option Int) (so : Int) : Task :=
  { id := i, userId := 1, listId := lid, text := "t", completed := false,
    important := false, isExpanded := false, sortOrder := so,
    tags := none, subtasks := none, createdAt := "", updatedAt := "" }

/-- Sample list with a given id. -/
def mkSampleList (i : Int) : ListEntity :=
  { id := i, userId := 1, title := "groceries", createdAt := "", updatedAt := "" }


/-- Clean module state for witnesses: not refreshing, empty queue, both
credentials stored. -/
def cleanAuthState : ClientAuthState :=
  { storage := { token := some "tok", refreshToken := some "ref", offlineCache := some "cache" },
    isRefreshing := false, failedQueue := [] }

/-- An ordinary request config (not retried, not the refresh endpoint). -/
def ordinaryConfig : RequestConfig :=
  { url := "/api/tasks", authHeader := some "Bearer tok", retryFlag := false }

/-- A config already marked retried. -/
def retriedConfig : RequestConfig :=
  { url := "/api/tasks", authHeader := some "Bearer tok", retryFlag := true }

/-- A config targeting the refresh endpoint. -/
def refreshEndpointConfig : RequestConfig :=
  { url := "/api/auth/refresh", authHeader := none, retryFlag := false }

/-- A connection whose send buffer is completely full. -/
def fullClient : HubClient :=
  { clientId := 0, userId := 1, send := List.replicate sendCap 0 }

/-- A hub whose only registered connection is the full one. -/
def hubOneFull : HubState :=
  { clients := fun u => if u = 1 then some [fullClient] else none, closed := [] }

/-- A hub with no registered connection at all. -/
def emptyHub : HubState := { clients := fun _ => none, closed := [] }

/-- A connection of user 1 with an empty (room-having) buffer. -/
def roomClient : HubClient := { clientId := 1, userId := 1, send := [] }

/-- A connection of user 2. -/
def otherUserClient : HubClient := { clientId := 2, userId := 2, send := [] }

/-- A hub with user 1 holding one full and one room-having connection and
user 2 holding one connection. -/
def sampleHub : HubState :=
  { clients := fun u =>
      if u = 1 then some [roomClient, fullClient]
      else if u = 2 then some [otherUserClient] else none,
    closed := [] }

/-- Cache right after the optimistic insert of useCreateList onMutate. -/
def cacheAfterCreate (dateNow : Int) (nowIso title : String) (c0 : Cache) : Cache :=
  { c0 with lists := (createList_onMutate dateNow nowIso title c0.lists).1 }
end TodoMaster

namespace TodoMaster

/-! ## C10: missing tasks cache freezes all envelope handling -/

/-- C10: whenever the tasks cache has no value, applying any incoming
envelope, the list events included, leaves the whole cache (tasks and
lists collections) unchanged, because handleWebSocketEvent returns early
when the tasks collection is absent. -/
theorem spec_C10 (ev : WSEvent) (c : Cache) (h : c.tasks = none) :
    handleWebSocketEvent ev c = c := by
  obtain ⟨t, l⟩ := c
  simp only [Cache.mk.injEq] at h ⊢
  subst h
  rfl

/-- Witness for spec_C10 at a concrete list_created envelope and a cache
with lists present but tasks absent. -/
theorem spec_C10_witness :
    handleWebSocketEvent (.list_created (mkSampleList 3)) ⟨none, some []⟩
      = ⟨none, some []⟩ :=
  spec_C10 (.list_created (mkSampleList 3)) ⟨none, some []⟩ rfl

/-! ## C4: list_deleted cascade -/

/-- Counterexample to C4: applying a list_deleted envelope for list 5 to a
cache holding one task with listId 5 removes the list but leaves the task
in the tasks collection, so the envelope does not cascade to tasks. -/
theorem spec_C4_cex :
    (handleWebSocketEvent (.list_deleted 5)
        ⟨some [mkSampleTask 1 (some 5) 0], some [mkSampleList 5]⟩
      = ⟨some [mkSampleTask 1 (some 5) 0], some []⟩)
    ∧ (mkSampleTask 1 (some 5) 0).listId = some 5 := by
  constructor
  · rfl
  · rfl

/-- C4 (amended): applying a list_deleted envelope removes the list with
that id from the lists collection but leaves the tasks collection
unchanged; the client-side cascade that removes every task whose listId
equals the deleted id happens only in the useDeleteList optimistic path
(onMutate), not in the envelope handler. -/
theorem spec_C4 (id : Int) (ts : List Task) (ls : List ListEntity) :
    (handleWebSocketEvent (.list_deleted id) ⟨some ts, some ls⟩
      = ⟨some ts, some (ls.filter fun l => l.id != id)⟩)
    ∧ ((deleteList_onMutate id ⟨some ts, some ls⟩).1
      = ⟨some (ts.filter fun t => t.listId != some id),
         some (ls.filter fun l => l.id != id)⟩) := by
  constructor
  · rfl
  · rfl

/-! ## C7: temp id namespace -/

/-- Counterexample to C7: the temp id synthesized at clock reading
1760000000000 equals the server-assignable id 1760000000000, so the temp
id namespace is not disjoint from the server id namespace. -/
theorem spec_C7_cex :
    genTempId 1760000000000 = 1760000000000
    ∧ serverAssignableId 1760000000000 := by
  constructor
  · rfl
  · norm_num [serverAssignableId]

/-- C7 (amended): a temp id is the raw Date.now() clock value, which lies
in the same positive-integer namespace that SQLite AUTOINCREMENT draws
server ids from; whenever the clock reading is itself a server-assignable
value the generated temp id is server-assignable too, so disjointness of
the two namespaces is not guaranteed by construction. -/
theorem spec_C7 (dateNow : Int) :
    genTempId dateNow = dateNow
    ∧ (1 ≤ dateNow → serverAssignableId (genTempId dateNow)) := by
  refine ⟨rfl, ?_⟩
  intro h
  simpa [genTempId, serverAssignableId] using h

/-- Witness for spec_C7 at the clock reading 42. -/
theorem spec_C7_witness :
    genTempId 42 = 42 ∧ serverAssignableId (genTempId 42) := by
  have h := spec_C7 42
  exact ⟨h.1, h.2 (by norm_num)⟩

/-! ## C2: rollback restores the pre-mutation snapshot -/

/-- Counterexample to C2: when the lists cache is absent before an
optimistic create, the error handler does not restore the absent state;
the optimistic entry remains cached, so the post-rollback cache differs
from the pre-mutation cache. -/
theorem spec_C2_cex :
    createList_onError (createList_onMutate 7 "" "a" none).2
        (createList_onMutate 7 "" "a" none).1
      ≠ none := by
  decide

/-- C2 (amended): the error handlers restore the exact pre-mutation
snapshot for update and delete mutations from every pre-mutation cache
state, and for create whenever the pre-mutation lists cache was present;
when the lists cache was absent before a create, no restore occurs and the
optimistically inserted entry remains cached. -/
theorem spec_C2 (dateNow : Int) (nowIso title : String) (id : Int)
    (prev : List ListEntity) (cur : Option (List ListEntity))
    (pre : Option (List ListEntity)) (c : Cache) :
    (createList_onError (createList_onMutate dateNow nowIso title (some prev)).2 cur
      = some prev)
    ∧ (updateList_onError (updateList_onMutate id title nowIso pre).2
        (updateList_onMutate id title nowIso pre).1 = pre)
    ∧ (deleteList_onError (deleteList_onMutate id c).2 (deleteList_onMutate id c).1 = c)
    ∧ (createList_onError (createList_onMutate dateNow nowIso title none).2
        (createList_onMutate dateNow nowIso title none).1
      = (createList_onMutate dateNow nowIso title none).1) := by
  refine ⟨rfl, ?_, ?_, rfl⟩
  · cases pre <;> rfl
  · obtain ⟨ts, ls⟩ := c
    cases ts <;> cases ls <;> rfl

/-! ## C6: bounded auth retry -/

/-- C6: a 401-failed request already marked retried, or targeting the
refresh endpoint itself, causes full sign-out (both stored credentials
cleared) and rejection instead of another refresh; a failing refresh call
clears the credentials and rejects every blocked caller; and the single
retried request produced by a started refresh is marked retried, so a
second 401 on it can only sign out, never loop. -/
theorem spec_C6 (st st2 : ClientAuthState) (r r2 : RequestConfig) :
    (r.retryFlag = true →
      (intercept401 st r).2 = .rejectNow
      ∧ (intercept401 st r).1.storage.token = none
      ∧ (intercept401 st r).1.storage.refreshToken = none)
    ∧ (includesSubstring r.url "/api/auth/refresh" = true →
      (intercept401 st r).2 = .rejectNow
      ∧ (intercept401 st r).1.storage.token = none
      ∧ (intercept401 st r).1.storage.refreshToken = none)
    ∧ ((settleRefreshFailure st).1.storage.token = none
      ∧ (settleRefreshFailure st).1.storage.refreshToken = none
      ∧ (settleRefreshFailure st).2.1 = st.failedQueue.map (fun _ => .rejected)
      ∧ (settleRefreshFailure st).2.2 = .rejected)
    ∧ ((intercept401 st r).2 = .startedRefresh r2 →
      r2.retryFlag = true ∧ (intercept401 st2 r2).2 = .rejectNow) := by
  refine ⟨?_, ?_, ?_, ?_⟩
  · intro h
    simp [intercept401, h, handleAuthFailure]
  · intro h
    simp [intercept401, h, handleAuthFailure]
  · exact ⟨rfl, rfl, rfl, rfl⟩
  · intro h4
    by_cases hc : (r.retryFlag || includesSubstring r.url "/api/auth/refresh") = true
    · simp [intercept401, hc] at h4
    · cases href : st.storage.refreshToken with
      | none => simp [intercept401, hc, href] at h4
      | some rt =>
        by_cases hr : st.isRefreshing = true
        · simp [intercept401, hc, href, hr] at h4
        · simp only [intercept401, hc, href, hr, if_false, Bool.false_eq_true,
            StepAction.startedRefresh.injEq] at h4
          have hflag : r2.retryFlag = true := by
            rw [← h4]
          refine ⟨hflag, ?_⟩
          simp [intercept401, hflag]




/-- Witness for spec_C6: the three guard branches at concrete inputs. -/
theorem spec_C6_witness :
    ((intercept401 cleanAuthState retriedConfig).2 = .rejectNow
      ∧ (intercept401 cleanAuthState retriedConfig).1.storage.token = none
      ∧ (intercept401 cleanAuthState retriedConfig).1.storage.refreshToken = none)
    ∧ ((intercept401 cleanAuthState refreshEndpointConfig).2 = .rejectNow)
    ∧ ({ ordinaryConfig with retryFlag := true } : RequestConfig).retryFlag = true
    ∧ (intercept401 cleanAuthState { ordinaryConfig with retryFlag := true }).2 = .rejectNow := by
  have h1 := (spec_C6 cleanAuthState cleanAuthState retriedConfig retriedConfig).1 rfl
  have h2 := ((spec_C6 cleanAuthState cleanAuthState refreshEndpointConfig
      refreshEndpointConfig).2.1 (by decide)).1
  have h4 := (spec_C6 cleanAuthState cleanAuthState ordinaryConfig
      { ordinaryConfig with retryFlag := true }).2.2.2 (by decide)
  exact ⟨h1, h2, h4.1, h4.2⟩

/-! ## C9: no empty registry entry -/


set_option maxRecDepth 4096 in
/-- Counterexample to C9: broadcasting to user 1, whose only connection
has a full queue, drops and closes that connection but leaves the user
entry in the map as an empty set instead of removing it. -/
theorem spec_C9_cex :
    (hubBroadcast hubOneFull 1 5).clients 1 = some []
    ∧ (hubBroadcast hubOneFull 1 5).closed = [fullClient] := by
  constructor
  · decide
  · decide

/-- Projection of the register branch. -/
lemma hubRegister_clients (h : HubState) (c : HubClient) (u : Int) :
    (hubRegister h c).clients u =
      if u = c.userId then
        some (if ((h.clients c.userId).getD []).contains c
              then (h.clients c.userId).getD []
              else (h.clients c.userId).getD [] ++ [c])
      else h.clients u := rfl

/-- C9 (amended): the no-empty-entry invariant is preserved by the
register and unregister branches of the Hub run loop (unregister drops an
emptied user entry), but the publish-overflow path only deletes the
connection and never removes the user entry, so publish can leave a user
mapped to an empty connection set. -/
theorem spec_C9 (h : HubState) (c : HubClient) (hne : NoEmptyEntry h) :
    NoEmptyEntry (hubRegister h c) ∧ NoEmptyEntry (hubUnregister h c) := by
  constructor
  · intro u
    rw [hubRegister_clients]
    by_cases hu : u = c.userId
    · rw [if_pos hu]
      intro hnil
      rw [Option.some.injEq] at hnil
      by_cases hmem : ((h.clients c.userId).getD []).contains c
      · rw [if_pos hmem] at hnil
        rw [List.contains_iff_exists_mem_beq] at hmem
        obtain ⟨x, hx, _⟩ := hmem
        rw [hnil] at hx
        exact List.not_mem_nil x hx
      · rw [if_neg hmem] at hnil
        rw [List.append_eq_nil] at hnil
        exact List.cons_ne_nil c [] hnil.2
    · rw [if_neg hu]
      exact hne u
  · intro u
    unfold hubUnregister
    cases hcl : h.clients c.userId with
    | none =>
      exact hne u
    | some cur =>
      dsimp only
      by_cases hmem : c ∈ cur
      · rw [if_pos hmem]
        by_cases hrem : cur.filter (fun x => x ≠ c) = []
        · rw [if_pos hrem]
          by_cases hu : u = c.userId
          · simp only [if_pos hu]
            exact fun heq => Option.noConfusion heq
          · simp only [if_neg hu]
            exact hne u
        · rw [if_neg hrem]
          by_cases hu : u = c.userId
          · simp only [if_pos hu]
            intro heq
            exact hrem (Option.some.inj heq)
          · simp only [if_neg hu]
            exact hne u
      · rw [if_neg hmem]
        exact hne u

/-- Witness for spec_C9: register and unregister on the empty hub. -/
theorem spec_C9_witness :
    NoEmptyEntry (hubRegister emptyHub fullClient)
    ∧ NoEmptyEntry (hubUnregister emptyHub fullClient) :=
  spec_C9 emptyHub fullClient (fun u => by simp [emptyHub])

/-! ## C8: publish drops overflowing connections without harming others -/

/-- C8: publishing to a user enqueues the envelope on every connection of
that user with buffer room (which stays registered), force-closes and
removes every connection of that user whose buffer is full, leaves every
other user's connection set untouched, and every surviving connection of
the target user is a room-having connection with the envelope appended.
The publish is a total transition: it never blocks. -/
theorem spec_C8 (h : HubState) (uid : Int) (msg : Nat) (cur : List HubClient)
    (hcur : h.clients uid = some cur) :
    (∀ c ∈ cur, c.send.length < sendCap →
      { c with send := c.send ++ [msg] } ∈ ((hubBroadcast h uid msg).clients uid).getD [])
    ∧ (∀ c ∈ cur, sendCap ≤ c.send.length →
      c ∈ (hubBroadcast h uid msg).closed
      ∧ ((cur.map HubClient.clientId).Nodup →
          ∀ d ∈ ((hubBroadcast h uid msg).clients uid).getD [], d.clientId ≠ c.clientId))
    ∧ (∀ u, u ≠ uid → (hubBroadcast h uid msg).clients u = h.clients u)
    ∧ (∀ d ∈ ((hubBroadcast h uid msg).clients uid).getD [],
      ∃ c ∈ cur, c.send.length < sendCap ∧ d = { c with send := c.send ++ [msg] }) := by
  have hstate : hubBroadcast h uid msg =
      { clients := fun u => if u = uid then
          some (cur.filterMap fun c =>
            if c.send.length < sendCap then some { c with send := c.send ++ [msg] } else none)
          else h.clients u,
        closed := h.closed ++ cur.filter fun c => sendCap ≤ c.send.length } := by
    unfold hubBroadcast
    rw [hcur]
  have hset : ((hubBroadcast h uid msg).clients uid).getD []
      = cur.filterMap fun c =>
          if c.send.length < sendCap then some { c with send := c.send ++ [msg] } else none := by
    rw [hstate]
    simp
  refine ⟨?_, ?_, ?_, ?_⟩
  · intro c hc hlt
    rw [hset]
    exact List.mem_filterMap.mpr ⟨c, hc, by rw [if_pos hlt]⟩
  · intro c hc hge
    constructor
    · rw [hstate]
      exact List.mem_append_right _ (List.mem_filter.mpr ⟨hc, by simpa using hge⟩)
    · intro hnd d hd
      rw [hset] at hd
      obtain ⟨c2, hc2, hf⟩ := List.mem_filterMap.mp hd
      by_cases hlt2 : c2.send.length < sendCap
      · rw [if_pos hlt2] at hf
        intro hid
        have hdc2 : d.clientId = c2.clientId := by
          rw [← Option.some.inj hf]
        have : c2 = c := List.inj_on_of_nodup_map hnd hc2 hc (by rw [← hdc2, hid])
        rw [this] at hlt2
        exact absurd hge (not_le.mpr hlt2)
      · rw [if_neg hlt2] at hf
        exact Option.noConfusion hf
  · intro u hu
    rw [hstate]
    simp [hu]
  · intro d hd
    rw [hset] at hd
    obtain ⟨c2, hc2, hf⟩ := List.mem_filterMap.mp hd
    by_cases hlt2 : c2.send.length < sendCap
    · rw [if_pos hlt2] at hf
      exact ⟨c2, hc2, hlt2, (Option.some.inj hf).symm⟩
    · rw [if_neg hlt2] at hf
      exact Option.noConfusion hf



set_option maxRecDepth 4096 in
/-- Witness for spec_C8: on the sample hub, publishing message 9 to user 1
delivers to the room-having connection, closes and removes the full one,
and leaves user 2 untouched. -/
theorem spec_C8_witness :
    ({ roomClient with send := roomClient.send ++ [9] }
        ∈ ((hubBroadcast sampleHub 1 9).clients 1).getD [])
    ∧ fullClient ∈ (hubBroadcast sampleHub 1 9).closed
    ∧ (hubBroadcast sampleHub 1 9).clients 2 = sampleHub.clients 2 := by
  have h := spec_C8 sampleHub 1 9 [roomClient, fullClient] rfl
  refine ⟨?_, ?_, ?_⟩
  · exact h.1 roomClient (by simp) (by decide)
  · exact (h.2.1 fullClient (by simp) (by decide)).1
  · exact h.2.2.1 2 (by decide)

/-! ## C1: create race between REST success and the Hub broadcast -/

/-- The temp id recorded in the onMutate context is the clock reading. -/
lemma createList_onMutate_tempId (d : Int) (i t : String) (o : Option (List ListEntity)) :
    (createList_onMutate d i t o).2.tempId = d := by
  cases o <;> rfl

/-- onMutate always leaves a present lists cache. -/
lemma createList_onMutate_isSome (d : Int) (i t : String) (o : Option (List ListEntity)) :
    ∃ xs, (createList_onMutate d i t o).1 = some xs := by
  cases o with
  | none => exact ⟨_, rfl⟩
  | some prev => exact ⟨_, rfl⟩

/-- Shape of the onSuccess write on a present cache with a truthy temp id. -/
lemma createList_onSuccess_shape (newList : ListEntity) (ctx : CreateListContext)
    (cur : List ListEntity) (h0 : ctx.tempId ≠ 0) :
    createList_onSuccess newList ctx (some cur)
      = some ((cur.filter fun l => l.id != ctx.tempId && l.id != newList.id) ++ [newList]) := by
  unfold createList_onSuccess
  dsimp only
  rw [if_pos]
  simpa using h0

/-- Counting ids in the double-filtered list produced by onSuccess: the
confirmed id occurs exactly once and the temp id not at all. -/
lemma createList_onSuccess_counts (cur : List ListEntity) (newList : ListEntity) (temp : Int)
    (hne : temp ≠ newList.id) :
    (((cur.filter fun l => l.id != temp && l.id != newList.id) ++ [newList]).countP
        (fun l => l.id == newList.id) = 1)
    ∧ (((cur.filter fun l => l.id != temp && l.id != newList.id) ++ [newList]).countP
        (fun l => l.id == temp) = 0) := by
  constructor
  · rw [List.countP_append]
    have h1 : (cur.filter fun l => l.id != temp && l.id != newList.id).countP
        (fun l => l.id == newList.id) = 0 := by
      rw [List.countP_eq_zero]
      intro a ha
      have hmem := List.of_mem_filter ha
      simp only [Bool.and_eq_true, bne_iff_ne, Ne, beq_iff_eq] at hmem ⊢
      exact hmem.2
    rw [h1]
    simp [List.countP_cons]
  · rw [List.countP_append]
    have h1 : (cur.filter fun l => l.id != temp && l.id != newList.id).countP
        (fun l => l.id == temp) = 0 := by
      rw [List.countP_eq_zero]
      intro a ha
      have hmem := List.of_mem_filter ha
      simp only [Bool.and_eq_true, bne_iff_ne, Ne, beq_iff_eq] at hmem ⊢
      exact hmem.1
    rw [h1]
    have : (newList.id == temp) = false := by
      simpa [beq_iff_eq] using fun heq => hne heq.symm
    simp [List.countP_cons, this]

/-- A list_created envelope keeps the lists cache present. -/
lemma listCreated_lists_isSome (l : ListEntity) (c : Cache) (xs : List ListEntity)
    (h : c.lists = some xs) :
    ∃ ys, (handleWebSocketEvent (.list_created l) c).lists = some ys := by
  obtain ⟨ts, ls⟩ := c
  simp only at h
  subst h
  cases ts with
  | none => exact ⟨xs, rfl⟩
  | some tl =>
    by_cases hany : xs.any fun x => x.id == l.id
    · exact ⟨xs, by simp [handleWebSocketEvent, hany]⟩
    · exact ⟨xs ++ [l], by simp [handleWebSocketEvent, hany]⟩

/-- A list_created envelope whose entity is already cached leaves the
lists cache unchanged (the duplicate guard). -/
lemma listCreated_noop_of_mem (l : ListEntity) (c : Cache) (ys : List ListEntity)
    (h : c.lists = some ys) (hmem : l ∈ ys) :
    (handleWebSocketEvent (.list_created l) c).lists = c.lists := by
  obtain ⟨ts, ls⟩ := c
  simp only at h
  subst h
  cases ts with
  | none => rfl
  | some tl =>
    have hany : ys.any (fun x => x.id == l.id) = true :=
      List.any_eq_true.mpr ⟨l, hmem, by simp⟩
    simp [handleWebSocketEvent, hany]

/-- C1: after an optimistic list create, applying the REST success handler
and the Hub broadcast of the same creation in either order leaves exactly
one cached entity with the server-assigned id and none with the temp id
(for a nonzero clock reading distinct from the server id). -/
theorem spec_C1 (c0 : Cache) (dateNow : Int) (nowIso title : String) (newList : ListEntity)
    (h0 : dateNow ≠ 0) (h1 : dateNow ≠ newList.id) :
    ((((createSuccessCache newList (createList_onMutate dateNow nowIso title c0.lists).2
          (handleWebSocketEvent (.list_created newList)
            (cacheAfterCreate dateNow nowIso title c0))).lists.getD []).countP
        (fun l => l.id == newList.id) = 1)
      ∧ (((createSuccessCache newList (createList_onMutate dateNow nowIso title c0.lists).2
          (handleWebSocketEvent (.list_created newList)
            (cacheAfterCreate dateNow nowIso title c0))).lists.getD []).countP
        (fun l => l.id == dateNow) = 0))
    ∧ ((((handleWebSocketEvent (.list_created newList)
          (createSuccessCache newList (createList_onMutate dateNow nowIso title c0.lists).2
            (cacheAfterCreate dateNow nowIso title c0))).lists.getD []).countP
        (fun l => l.id == newList.id) = 1)
      ∧ (((handleWebSocketEvent (.list_created newList)
          (createSuccessCache newList (createList_onMutate dateNow nowIso title c0.lists).2
            (cacheAfterCreate dateNow nowIso title c0))).lists.getD []).countP
        (fun l => l.id == dateNow) = 0)) := by
  have htmp : (createList_onMutate dateNow nowIso title c0.lists).2.tempId = dateNow :=
    createList_onMutate_tempId dateNow nowIso title c0.lists
  have htmp0 : (createList_onMutate dateNow nowIso title c0.lists).2.tempId ≠ 0 := by
    rw [htmp]; exact h0
  obtain ⟨xs, hxs⟩ := createList_onMutate_isSome dateNow nowIso title c0.lists
  have hc1lists : (cacheAfterCreate dateNow nowIso title c0).lists = some xs := hxs
  constructor
  · -- broadcast first, then success
    obtain ⟨ys, hys⟩ :=
      listCreated_lists_isSome newList (cacheAfterCreate dateNow nowIso title c0) xs hc1lists
    have hshape : (createSuccessCache newList (createList_onMutate dateNow nowIso title c0.lists).2
        (handleWebSocketEvent (.list_created newList)
          (cacheAfterCreate dateNow nowIso title c0))).lists
        = some ((ys.filter fun l =>
            l.id != (createList_onMutate dateNow nowIso title c0.lists).2.tempId
            && l.id != newList.id) ++ [newList]) := by
      unfold createSuccessCache
      rw [hys]
      exact createList_onSuccess_shape newList _ ys htmp0
    rw [hshape]
    have hcounts := createList_onSuccess_counts ys newList
      (createList_onMutate dateNow nowIso title c0.lists).2.tempId (by rw [htmp]; exact h1)
    rw [htmp] at hcounts
    simpa [htmp] using hcounts
  · -- success first, then broadcast
    have hshape : (createSuccessCache newList (createList_onMutate dateNow nowIso title c0.lists).2
        (cacheAfterCreate dateNow nowIso title c0)).lists
        = some ((xs.filter fun l =>
            l.id != (createList_onMutate dateNow nowIso title c0.lists).2.tempId
            && l.id != newList.id) ++ [newList]) := by
      unfold createSuccessCache
      rw [hc1lists]
      exact createList_onSuccess_shape newList _ xs htmp0
    have hnoop := listCreated_noop_of_mem newList
      (createSuccessCache newList (createList_onMutate dateNow nowIso title c0.lists).2
        (cacheAfterCreate dateNow nowIso title c0))
      _ hshape (List.mem_append_right _ (List.mem_singleton.mpr rfl))
    rw [hnoop, hshape]
    have hcounts := createList_onSuccess_counts xs newList
      (createList_onMutate dateNow nowIso title c0.lists).2.tempId (by rw [htmp]; exact h1)
    rw [htmp] at hcounts
    simpa [htmp] using hcounts

/-- Witness for spec_C1 on the empty cache with clock reading 7 and
server-assigned id 1. -/
theorem spec_C1_witness :
    ((((createSuccessCache (mkSampleList 1) (createList_onMutate 7 "" "g" (Cache.mk none none).lists).2
          (handleWebSocketEvent (.list_created (mkSampleList 1))
            (cacheAfterCreate 7 "" "g" (Cache.mk none none)))).lists.getD []).countP
        (fun l => l.id == (mkSampleList 1).id) = 1)
      ∧ (((createSuccessCache (mkSampleList 1) (createList_onMutate 7 "" "g" (Cache.mk none none).lists).2
          (handleWebSocketEvent (.list_created (mkSampleList 1))
            (cacheAfterCreate 7 "" "g" (Cache.mk none none)))).lists.getD []).countP
        (fun l => l.id == 7) = 0))
    ∧ ((((handleWebSocketEvent (.list_created (mkSampleList 1))
          (createSuccessCache (mkSampleList 1) (createList_onMutate 7 "" "g" (Cache.mk none none).lists).2
            (cacheAfterCreate 7 "" "g" (Cache.mk none none)))).lists.getD []).countP
        (fun l => l.id == (mkSampleList 1).id) = 1)
      ∧ (((handleWebSocketEvent (.list_created (mkSampleList 1))
          (createSuccessCache (mkSampleList 1) (createList_onMutate 7 "" "g" (Cache.mk none none).lists).2
            (cacheAfterCreate 7 "" "g" (Cache.mk none none)))).lists.getD []).countP
        (fun l => l.id == 7) = 0)) :=
  spec_C1 (Cache.mk none none) 7 "" "g" (mkSampleList 1) (by decide) (by decide)

/-! ## C5: single-flight refresh -/

/-- A clean 401 (not retried, not the refresh endpoint) with a stored
refresh token while a refresh is already in flight gets queued. -/
lemma intercept401_queued (st : ClientAuthState) (r : RequestConfig) (rt : String)
    (hflag : r.retryFlag = false)
    (hurl : includesSubstring r.url "/api/auth/refresh" = false)
    (href : st.storage.refreshToken = some rt)
    (hr : st.isRefreshing = true) :
    intercept401 st r = ({ st with failedQueue := st.failedQueue ++ [r] }, .queued) := by
  simp [intercept401, hflag, hurl, href, hr]

/-- A clean 401 with a stored refresh token while idle marks the request
retried and starts the refresh. -/
lemma intercept401_start (st : ClientAuthState) (r : RequestConfig) (rt : String)
    (hflag : r.retryFlag = false)
    (hurl : includesSubstring r.url "/api/auth/refresh" = false)
    (href : st.storage.refreshToken = some rt)
    (hr : st.isRefreshing = false) :
    intercept401 st r
      = ({ st with isRefreshing := true }, .startedRefresh { r with retryFlag := true }) := by
  simp [intercept401, hflag, hurl, href, hr]

/-- While a refresh is in flight, a whole burst of clean 401s is queued:
the storage is untouched, the refresh stays in flight, the queue grows by
exactly the burst, and every action is queued. -/
lemma runBurst_queued (mk : Nat → RequestConfig)
    (hmk : ∀ i, (mk i).retryFlag = false ∧ includesSubstring (mk i).url "/api/auth/refresh" = false) :
    ∀ (n : Nat) (st : ClientAuthState) (rt : String),
      st.isRefreshing = true → st.storage.refreshToken = some rt →
      (runBurst mk n st).1.storage = st.storage
      ∧ (runBurst mk n st).1.isRefreshing = true
      ∧ (runBurst mk n st).1.failedQueue = st.failedQueue ++ ((List.range n).reverse.map mk)
      ∧ (runBurst mk n st).2 = List.replicate n .queued
  | 0, st, rt, hr, href => by
    simp [runBurst, hr]
  | n + 1, st, rt, hr, href => by
    have hstep := intercept401_queued st (mk n) rt (hmk n).1 (hmk n).2 href hr
    have ih := runBurst_queued mk hmk n { st with failedQueue := st.failedQueue ++ [mk n] }
      rt hr href
    simp only [runBurst, hstep]
    refine ⟨ih.1, ih.2.1, ?_, ?_⟩
    · rw [ih.2.2.1]
      simp [List.range_succ]
    · rw [ih.2.2.2]
      rfl

/-- Mapping a constant over a list is replication. -/
lemma map_const_settled (l : List RequestConfig) (x : Settled) :
    l.map (fun _ => x) = List.replicate l.length x := by
  induction l with
  | nil => rfl
  | cons a l ih => simp [ih, List.replicate_succ]

/-- C5: a burst of n simultaneous clean 401 failures while idle with a
stored refresh token issues exactly one refresh call (the other n-1 are
queued, never a second refresh); if the refresh succeeds, every blocked
request and the initiator resolve carrying the post-refresh credential,
and if it fails they are all rejected. -/
theorem spec_C5 (n : Nat) (hn : 1 ≤ n) (mk : Nat → RequestConfig)
    (hmk : ∀ i, (mk i).retryFlag = false ∧ includesSubstring (mk i).url "/api/auth/refresh" = false)
    (st0 : ClientAuthState) (rt accessToken newRefresh : String)
    (h1 : st0.isRefreshing = false) (h2 : st0.failedQueue = [])
    (h3 : st0.storage.refreshToken = some rt) :
    ((runBurst mk n st0).2.countP
        (fun a => match a with | .startedRefresh _ => true | _ => false) = 1)
    ∧ ((runBurst mk n st0).2.countP (fun a => a == .queued) = n - 1)
    ∧ ((runBurst mk n st0).1.failedQueue.length = n - 1)
    ∧ ((settleRefreshSuccess accessToken newRefresh (runBurst mk n st0).1).2.1
        = List.replicate (n - 1) (.resolvedWith (some accessToken)))
    ∧ ((settleRefreshSuccess accessToken newRefresh (runBurst mk n st0).1).2.2
        = .resolvedWith (some accessToken))
    ∧ ((settleRefreshFailure (runBurst mk n st0).1).2.1 = List.replicate (n - 1) .rejected)
    ∧ ((settleRefreshFailure (runBurst mk n st0).1).2.2 = .rejected) := by
  obtain ⟨m, rfl⟩ : ∃ m, n = m + 1 := ⟨n - 1, (Nat.succ_pred_eq_of_pos hn).symm⟩
  have hstep := intercept401_start st0 (mk m) rt (hmk m).1 (hmk m).2 h3 h1
  have hq := runBurst_queued mk hmk m { st0 with isRefreshing := true } rt rfl h3
  have hrun1 : (runBurst mk (m + 1) st0).1 = (runBurst mk m { st0 with isRefreshing := true }).1 := by
    simp only [runBurst, hstep]
  have hrun2 : (runBurst mk (m + 1) st0).2
      = .startedRefresh { mk m with retryFlag := true }
        :: (runBurst mk m { st0 with isRefreshing := true }).2 := by
    simp only [runBurst, hstep]
  have hqueue : (runBurst mk (m + 1) st0).1.failedQueue = (List.range m).reverse.map mk := by
    rw [hrun1, hq.2.2.1]
    simp [h2]
  have hqlen : (runBurst mk (m + 1) st0).1.failedQueue.length = m := by
    rw [hqueue]
    simp
  have hacts : (runBurst mk (m + 1) st0).2
      = .startedRefresh { mk m with retryFlag := true } :: List.replicate m .queued := by
    rw [hrun2, hq.2.2.2]
  refine ⟨?_, ?_, ?_, ?_, rfl, ?_, rfl⟩
  · rw [hacts]
    rw [List.countP_cons]
    simp only [if_pos rfl]
    rw [List.countP_eq_zero.mpr]
    · rfl
    · intro a ha
      rw [List.eq_of_mem_replicate ha]
      simp
  · rw [hacts, List.countP_cons]
    have hrep : (List.replicate m StepAction.queued).countP (fun a => a == StepAction.queued)
        = m := by
      rw [List.countP_eq_length.mpr]
      · exact List.length_replicate m _
      · intro a ha
        rw [List.eq_of_mem_replicate ha]
        rfl
    rw [hrep]
    rfl
  · simpa using hqlen
  · show (runBurst mk (m + 1) st0).1.failedQueue.map (fun _ => Settled.resolvedWith (some accessToken))
      = List.replicate (m + 1 - 1) (.resolvedWith (some accessToken))
    rw [map_const_settled, hqlen]
    rfl
  · show (runBurst mk (m + 1) st0).1.failedQueue.map (fun _ => Settled.rejected)
      = List.replicate (m + 1 - 1) .rejected
    rw [map_const_settled, hqlen]
    rfl

/-- Witness for spec_C5: five simultaneous 401s from the clean state. -/
theorem spec_C5_witness :
    ((runBurst (fun _ => ordinaryConfig) 5 cleanAuthState).2.countP
        (fun a => match a with | .startedRefresh _ => true | _ => false) = 1)
    ∧ ((runBurst (fun _ => ordinaryConfig) 5 cleanAuthState).2.countP
        (fun a => a == .queued) = 4)
    ∧ ((runBurst (fun _ => ordinaryConfig) 5 cleanAuthState).1.failedQueue.length = 4)
    ∧ ((settleRefreshSuccess "newTok" "newRef"
          (runBurst (fun _ => ordinaryConfig) 5 cleanAuthState).1).2.1
        = List.replicate 4 (.resolvedWith (some "newTok")))
    ∧ ((settleRefreshSuccess "newTok" "newRef"
          (runBurst (fun _ => ordinaryConfig) 5 cleanAuthState).1).2.2
        = .resolvedWith (some "newTok"))
    ∧ ((settleRefreshFailure (runBurst (fun _ => ordinaryConfig) 5 cleanAuthState).1).2.1
        = List.replicate 4 .rejected)
    ∧ ((settleRefreshFailure (runBurst (fun _ => ordinaryConfig) 5 cleanAuthState).1).2.2
        = .rejected) := by
  have hord : ordinaryConfig.retryFlag = false
      ∧ includesSubstring ordinaryConfig.url "/api/auth/refresh" = false := by
    exact ⟨rfl, by decide⟩
  exact spec_C5 5 (by decide) (fun _ => ordinaryConfig) (fun _ => hord)
    cleanAuthState "ref" "newTok" "newRef" rfl rfl rfl

/-! ## C3: tasks_reordered on a strict subset of the cached ids -/

/-- The enum-map-reduceOption pipeline of applyReorder equals the
structural recursion reorderCore. -/
lemma reduceOption_enumFrom_eq_reorderCore (lookup : Int → Option Task) :
    ∀ (ids : List Int) (k : Nat),
      ((List.enumFrom k ids).map fun p =>
        (lookup p.2).map fun task => { task with sortOrder := (p.1 : Int) }).reduceOption
        = reorderCore lookup k ids
  | [], _ => rfl
  | id :: rest, k => by
    show ((lookup id).map (fun task => { task with sortOrder := (k : Int) })
        :: (List.enumFrom (k + 1) rest).map fun p =>
            (lookup p.2).map fun task => { task with sortOrder := (p.1 : Int) }).reduceOption
      = reorderCore lookup k (id :: rest)
    cases hl : lookup id with
    | none =>
      rw [Option.map_none', List.reduceOption_cons_of_none]
      rw [reduceOption_enumFrom_eq_reorderCore lookup rest (k + 1)]
      simp [reorderCore, hl]
    | some t =>
      rw [Option.map_some', List.reduceOption_cons_of_some]
      rw [reduceOption_enumFrom_eq_reorderCore lookup rest (k + 1)]
      simp [reorderCore, hl]

/-- applyReorder splits into the reordered named tasks and the appended
unmentioned tasks. -/
lemma applyReorder_eq (ids : List Int) (tasks : List Task) :
    applyReorder ids tasks
      = reorderCore (revFind tasks) 0 ids ++ tasks.filter fun t => !ids.contains t.id := by
  unfold applyReorder
  exact congrArg (· ++ _) (reduceOption_enumFrom_eq_reorderCore (revFind tasks) ids 0)

/-- When every named id is found, reorderCore has one output per id. -/
lemma reorderCore_length (lookup : Int → Option Task) :
    ∀ (ids : List Int) (k : Nat), (∀ id ∈ ids, (lookup id).isSome) →
      (reorderCore lookup k ids).length = ids.length
  | [], _, _ => rfl
  | id :: rest, k, hall => by
    obtain ⟨t, ht⟩ := Option.isSome_iff_exists.mp (hall id (List.mem_cons_self id rest))
    have ih := reorderCore_length lookup rest (k + 1)
      (fun i hi => hall i (List.mem_cons_of_mem id hi))
    simp [reorderCore, ht, ih]

/-- When every named id is found under its own id, the ids of the
reorderCore output are exactly the named ids in order. -/
lemma reorderCore_map_id (lookup : Int → Option Task) :
    ∀ (ids : List Int) (k : Nat), (∀ id ∈ ids, ∃ t, lookup id = some t ∧ t.id = id) →
      (reorderCore lookup k ids).map Task.id = ids
  | [], _, _ => rfl
  | id :: rest, k, hall => by
    obtain ⟨t, ht, hid⟩ := hall id (List.mem_cons_self id rest)
    have ih := reorderCore_map_id lookup rest (k + 1)
      (fun i hi => hall i (List.mem_cons_of_mem id hi))
    simp [reorderCore, ht, ih, hid]

/-- Pointwise description of the reorderCore output: position j holds the
found task for the j-th id with its sortOrder set to the running index. -/
lemma reorderCore_get (lookup : Int → Option Task) :
    ∀ (ids : List Int) (k : Nat), (∀ id ∈ ids, (lookup id).isSome) →
      ∀ (j : Nat) (hj : j < ids.length) (hj2 : j < (reorderCore lookup k ids).length),
      ∃ t, lookup (ids.get ⟨j, hj⟩) = some t
        ∧ (reorderCore lookup k ids).get ⟨j, hj2⟩ = { t with sortOrder := ((k + j : Nat) : Int) }
  | [], _, _, j, hj, _ => absurd hj (Nat.not_lt_zero j)
  | id :: rest, k, hall, j, hj, hj2 => by
    obtain ⟨t, ht⟩ := Option.isSome_iff_exists.mp (hall id (List.mem_cons_self id rest))
    have hrest : ∀ i ∈ rest, (lookup i).isSome :=
      fun i hi => hall i (List.mem_cons_of_mem id hi)
    cases j with
    | zero =>
      refine ⟨t, ht, ?_⟩
      have hcore : reorderCore lookup k (id :: rest)
          = { t with sortOrder := (k : Int) } :: reorderCore lookup (k + 1) rest := by
        simp [reorderCore, ht]
      simp [hcore]
    | succ j =>
      have hj' : j < rest.length := Nat.lt_of_succ_lt_succ hj
      have hcore : reorderCore lookup k (id :: rest)
          = { t with sortOrder := (k : Int) } :: reorderCore lookup (k + 1) rest := by
        simp [reorderCore, ht]
      have hj2' : j < (reorderCore lookup (k + 1) rest).length := by
        rw [reorderCore_length lookup rest (k + 1) hrest]
        exact hj'
      obtain ⟨u, hu, hget⟩ := reorderCore_get lookup rest (k + 1) hrest j hj' hj2'
      refine ⟨u, ?_, ?_⟩
      · simpa using hu
      · have : (reorderCore lookup k (id :: rest)).get ⟨j + 1, hj2⟩
            = (reorderCore lookup (k + 1) rest).get ⟨j, by omega⟩ := by
          simp [hcore]
        rw [this]
        rw [hget]
        have harith : (k + 1 + j : Nat) = (k + (j + 1) : Nat) := by omega
        simp [harith]

/-- In a list of tasks with pairwise distinct ids, find-by-id returns the
unique member with that id. -/
lemma find_id_unique :
    ∀ (l : List Task), (l.map Task.id).Nodup →
      ∀ u ∈ l, l.find? (fun t => t.id == u.id) = some u
  | [], _, u, hu => absurd hu (List.not_mem_nil u)
  | t :: rest, hn, u, hu => by
    rw [List.map_cons, List.nodup_cons] at hn
    by_cases hte : t = u
    · subst hte
      simp [List.find?_cons_of_pos]
    · have hur : u ∈ rest := by
        cases List.mem_cons.mp hu with
        | inl h => exact absurd h.symm hte
        | inr h => exact h
      have hne : (t.id == u.id) = false := by
        rw [beq_eq_false_iff_ne]
        intro heq
        exact hn.1 (heq ▸ List.mem_map_of_mem Task.id hur)
      rw [List.find?_cons_of_neg _ (by simp [hne])]
      exact find_id_unique rest hn.2 u hur

/-- revFind on a duplicate-free task list returns the unique member with
the requested id. -/
lemma revFind_eq_of_nodup (l : List Task) (hn : (l.map Task.id).Nodup)
    (u : Task) (hu : u ∈ l) (id : Int) (hid : u.id = id) :
    revFind l id = some u := by
  unfold revFind
  subst hid
  have hnr : (l.reverse.map Task.id).Nodup := by
    rw [List.map_reverse]
    exact List.nodup_reverse.mpr hn
  exact find_id_unique l.reverse hnr u (List.mem_reverse.mpr hu)

/-- Every id present among the task ids is found by revFind, under its
own id and as a member. -/
lemma revFind_found (tasks : List Task) (id : Int) (h : id ∈ tasks.map Task.id) :
    ∃ t, revFind tasks id = some t ∧ t.id = id ∧ t ∈ tasks := by
  obtain ⟨t, ht, hid⟩ := List.mem_map.mp h
  have hsome : (tasks.reverse.find? fun x => x.id == id).isSome :=
    List.find?_isSome.mpr ⟨t, List.mem_reverse.mpr ht, by simp [hid]⟩
  obtain ⟨u, hu⟩ := Option.isSome_iff_exists.mp hsome
  refine ⟨u, hu, ?_, ?_⟩
  · have := List.find?_some hu
    simpa using this
  · exact List.mem_reverse.mp (List.mem_of_find?_eq_some hu)

/-- Core specification of applyReorder under a duplicate-free cache whose
ids cover the named ids: the output ids are the named ids followed by the
unmentioned ones, the tail is exactly the unmentioned tasks in their
previous relative order, and a second application changes nothing. -/
lemma applyReorder_spec (ids : List Int) (tasks : List Task)
    (h₁ : ids.Nodup) (h₂ : ∀ i ∈ ids, i ∈ tasks.map Task.id)
    (h₃ : (tasks.map Task.id).Nodup) :
    ((applyReorder ids tasks).map Task.id
        = ids ++ (tasks.filter fun t => !ids.contains t.id).map Task.id)
    ∧ ((applyReorder ids tasks).drop ids.length
        = tasks.filter fun t => !ids.contains t.id)
    ∧ applyReorder ids (applyReorder ids tasks) = applyReorder ids tasks := by
  have hfoundT : ∀ i ∈ ids, ∃ t, revFind tasks i = some t ∧ t.id = i := by
    intro i hi
    obtain ⟨t, ht, hid, _⟩ := revFind_found tasks i (h₂ i hi)
    exact ⟨t, ht, hid⟩
  have hallT : ∀ i ∈ ids, (revFind tasks i).isSome := by
    intro i hi
    obtain ⟨t, ht, _⟩ := hfoundT i hi
    rw [ht]
    rfl
  have hA := applyReorder_eq ids tasks
  have hRids : (reorderCore (revFind tasks) 0 ids).map Task.id = ids :=
    reorderCore_map_id (revFind tasks) ids 0 hfoundT
  have hRlen : (reorderCore (revFind tasks) 0 ids).length = ids.length :=
    reorderCore_length (revFind tasks) ids 0 hallT
  have hmap : (applyReorder ids tasks).map Task.id
      = ids ++ (tasks.filter fun t => !ids.contains t.id).map Task.id := by
    rw [hA, List.map_append, hRids]
  have hdrop : (applyReorder ids tasks).drop ids.length
      = tasks.filter fun t => !ids.contains t.id := by
    rw [hA, ← hRlen, List.drop_left]
  refine ⟨hmap, hdrop, ?_⟩
  -- idempotence
  have hMnodup : ((tasks.filter fun t => !ids.contains t.id).map Task.id).Nodup :=
    List.Nodup.sublist ((List.filter_sublist tasks).map Task.id) h₃
  have hdisj : ids.Disjoint ((tasks.filter fun t => !ids.contains t.id).map Task.id) := by
    intro a ha hma
    obtain ⟨m, hm, hmid⟩ := List.mem_map.mp hma
    have hp := (List.mem_filter.mp hm).2
    rw [hmid] at hp
    rw [Bool.not_eq_true'] at hp
    have h2 : ids.contains a = true := List.elem_iff.mpr ha
    rw [hp] at h2
    exact Bool.false_ne_true h2
  have hAnodup : ((applyReorder ids tasks).map Task.id).Nodup := by
    rw [hmap]
    exact List.nodup_append.mpr ⟨h₁, hMnodup, hdisj⟩
  have hallA : ∀ i ∈ ids, (revFind (applyReorder ids tasks) i).isSome := by
    intro i hi
    have hiA : i ∈ (applyReorder ids tasks).map Task.id := by
      rw [hmap]
      exact List.mem_append_left _ hi
    obtain ⟨t, ht, _⟩ := revFind_found (applyReorder ids tasks) i hiA
    rw [ht]
    rfl
  have hAlen : (reorderCore (revFind (applyReorder ids tasks)) 0 ids).length = ids.length :=
    reorderCore_length _ ids 0 hallA
  -- the unmentioned tail survives a second filter
  have hMagain : (applyReorder ids tasks).filter (fun t => !ids.contains t.id)
      = tasks.filter fun t => !ids.contains t.id := by
    rw [hA, List.filter_append]
    have hRnil : (reorderCore (revFind tasks) 0 ids).filter (fun t => !ids.contains t.id)
        = [] := by
      rw [List.filter_eq_nil_iff]
      intro r hr
      have hrid : r.id ∈ ids := by
        rw [← hRids]
        exact List.mem_map_of_mem Task.id hr
      simp only [Bool.not_eq_true', Bool.not_eq_false]
      exact List.elem_iff.mpr hrid
    have hMself : (tasks.filter fun t => !ids.contains t.id).filter
        (fun t => !ids.contains t.id) = tasks.filter fun t => !ids.contains t.id := by
      rw [List.filter_eq_self]
      intro m hm
      exact (List.mem_filter.mp hm).2
    rw [hRnil, hMself, List.nil_append]
  -- the reordered head is reproduced exactly
  have hRagain : reorderCore (revFind (applyReorder ids tasks)) 0 ids
      = reorderCore (revFind tasks) 0 ids := by
    apply List.ext_get (by rw [hAlen, hRlen])
    intro j hjA hjT
    have hj : j < ids.length := by rwa [hAlen] at hjA
    obtain ⟨t, htl, htg⟩ := reorderCore_get (revFind tasks) ids 0 hallT j hj hjT
    obtain ⟨t2, htl2, htg2⟩ :=
      reorderCore_get (revFind (applyReorder ids tasks)) ids 0 hallA j hj hjA
    have hRjmem : (reorderCore (revFind tasks) 0 ids).get ⟨j, hjT⟩ ∈ applyReorder ids tasks := by
      rw [hA]
      exact List.mem_append_left _ (List.get_mem _ j hjT)
    have htid : t.id = ids.get ⟨j, hj⟩ := by
      have := List.find?_some
        (show tasks.reverse.find? (fun x => x.id == ids.get ⟨j, hj⟩) = some t from htl)
      simpa using this
    have hRjid : ((reorderCore (revFind tasks) 0 ids).get ⟨j, hjT⟩).id = ids.get ⟨j, hj⟩ := by
      rw [htg]
      exact htid
    have hfA : revFind (applyReorder ids tasks) (ids.get ⟨j, hj⟩)
        = some ((reorderCore (revFind tasks) 0 ids).get ⟨j, hjT⟩) :=
      revFind_eq_of_nodup (applyReorder ids tasks) hAnodup _ hRjmem _ hRjid
    have ht2eq : t2 = (reorderCore (revFind tasks) 0 ids).get ⟨j, hjT⟩ :=
      Option.some.inj (htl2.symm.trans hfA)
    rw [htg2, ht2eq, htg]
  rw [applyReorder_eq ids (applyReorder ids tasks), hMagain, hRagain, ← hA]

/-- C3: a tasks_reordered envelope naming a strict subset of the cached
ids (duplicate-free on both sides) writes back the named tasks first in
envelope order, appends the unmentioned tasks after them preserving their
previous relative order, and applying the same envelope twice produces the
same cache as applying it once. -/
theorem spec_C3 (taskIds : List Int) (tasks : List Task) (ls : Option (List ListEntity))
    (h₁ : taskIds.Nodup) (h₂ : ∀ i ∈ taskIds, i ∈ tasks.map Task.id)
    (h₃ : (tasks.map Task.id).Nodup) (h₄ : ∃ t ∈ tasks, t.id ∉ taskIds) :
    (handleWebSocketEvent (.tasks_reordered taskIds) ⟨some tasks, ls⟩
      = ⟨some (applyReorder taskIds tasks), ls⟩)
    ∧ ((applyReorder taskIds tasks).map Task.id
        = taskIds ++ (tasks.filter fun t => !taskIds.contains t.id).map Task.id)
    ∧ ((applyReorder taskIds tasks).drop taskIds.length
        = tasks.filter fun t => !taskIds.contains t.id)
    ∧ (handleWebSocketEvent (.tasks_reordered taskIds)
        (handleWebSocketEvent (.tasks_reordered taskIds) ⟨some tasks, ls⟩)
      = handleWebSocketEvent (.tasks_reordered taskIds) ⟨some tasks, ls⟩) := by
  obtain ⟨hmap, hdrop, hidem⟩ := applyReorder_spec taskIds tasks h₁ h₂ h₃
  refine ⟨rfl, hmap, hdrop, ?_⟩
  show (⟨some (applyReorder taskIds (applyReorder taskIds tasks)), ls⟩ : Cache)
    = ⟨some (applyReorder taskIds tasks), ls⟩
  rw [hidem]

/-- Witness for spec_C3: cache ids 1, 2, 3 with envelope order 3, 1. -/
theorem spec_C3_witness :
    (handleWebSocketEvent (.tasks_reordered [3, 1])
        ⟨some [mkSampleTask 1 none 0, mkSampleTask 2 none 1, mkSampleTask 3 none 2], none⟩
      = ⟨some (applyReorder [3, 1]
          [mkSampleTask 1 none 0, mkSampleTask 2 none 1, mkSampleTask 3 none 2]), none⟩)
    ∧ ((applyReorder [3, 1]
          [mkSampleTask 1 none 0, mkSampleTask 2 none 1, mkSampleTask 3 none 2]).map Task.id
        = [3, 1] ++ ([mkSampleTask 1 none 0, mkSampleTask 2 none 1, mkSampleTask 3 none 2].filter
            fun t => !(([3, 1] : List Int).contains t.id)).map Task.id)
    ∧ ((applyReorder [3, 1]
          [mkSampleTask 1 none 0, mkSampleTask 2 none 1, mkSampleTask 3 none 2]).drop 2
        = [mkSampleTask 1 none 0, mkSampleTask 2 none 1, mkSampleTask 3 none 2].filter
            fun t => !(([3, 1] : List Int).contains t.id))
    ∧ (handleWebSocketEvent (.tasks_reordered [3, 1])
        (handleWebSocketEvent (.tasks_reordered [3, 1])
          ⟨some [mkSampleTask 1 none 0, mkSampleTask 2 none 1, mkSampleTask 3 none 2], none⟩)
      = handleWebSocketEvent (.tasks_reordered [3, 1])
          ⟨some [mkSampleTask 1 none 0, mkSampleTask 2 none 1, mkSampleTask 3 none 2], none⟩) :=
  spec_C3 [3, 1] [mkSampleTask 1 none 0, mkSampleTask 2 none 1, mkSampleTask 3 none 2] none
    (by decide) (by decide) (by decide) ⟨mkSampleTask 2 none 1, by decide, by decide⟩

end TodoMaster
